import Mathlib

/-!
Shallow embedding of the recursive-backtracker maze generator in
src/src/App.js, together with proofs about its state machine, its wall
bookkeeping and its render projection.  The source mutates cell objects that
are aliased between the grid, the active cell and the backtracking stack;
the embedding stores the grid as a list of cells and refers to the active
cell and the stack entries by row-major grid index, so every cell update is
a grid update and aliasing is by construction.
-/

namespace MazeApp

/-- Wall flags of a cell; true means the wall is present. -/
structure Walls where
  top : Bool
  right : Bool
  bottom : Bool
  left : Bool
deriving DecidableEq, Repr

/-- A grid cell: coordinates in grid space, wall flags, and the visited
flag, named processed in the source. -/
structure Cell where
  x : Nat
  y : Nat
  walls : Walls
  processed : Bool
deriving DecidableEq, Repr

/-- Source createCell: a cell at (x, y) with all four walls present and
processed = false. -/
def createCell (x y : Nat) : Cell :=
  { x := x, y := y
  , walls := { top := true, right := true, bottom := true, left := true }
  , processed := false }

/-- Cartesian product of two lists in the pair order produced by ramda
xprod. -/
def xprod : List Nat → List Nat → List (Nat × Nat)
  | [], _ => []
  | a :: as, bs => bs.map (fun b => (a, b)) ++ xprod as bs

/-- Source createGrid: xprod of the row range and the column range, each
pair reversed to (col, row), then mapped through createCell; the result is
the row-major cell list, with cell (x, y) at index y * cols + x. -/
def createGrid (rows cols : Nat) : List Cell :=
  ((xprod (List.range rows) (List.range cols)).map (fun p => (p.2, p.1))).map
    (fun p => createCell p.1 p.2)

/-- The simulation state; activeCell and the cellStack entries are row-major
grid indices standing for the cell references of the source. -/
structure MazeState where
  grid : List Cell
  activeCell : Nat
  cellStack : List Nat
  mazeComplete : Bool
deriving DecidableEq, Repr

/-- Source createState: the freshly created grid, the active cell at grid
index 0, an empty stack, and mazeComplete = false.  The source performs no
validation of rows or cols. -/
def createState (rows cols : Nat) : MazeState :=
  { grid := createGrid rows cols
  , activeCell := 0
  , cellStack := []
  , mazeComplete := false }

/-- Placeholder cell used by the list lookups; every lookup made by the
generator on a well-formed state is in range. -/
def defaultCell : Cell := createCell 0 0

/-- Cell of a grid at a row-major index. -/
def cellAt (g : List Cell) (i : Nat) : Cell := g.getD i defaultCell

/-- Processed flag of the cell at an index. -/
def processedAt (g : List Cell) (i : Nat) : Bool := (cellAt g i).processed

/-- Source getValidNeighors: the four offset vectors added to the cell
coordinates, filtered to grid bounds, looked up in the grid at the
row-major index, and filtered to unprocessed cells.  The source returns
the cell objects; the embedding returns their grid indices. -/
def getValidNeighbors (rows cols : Nat) (grid : List Cell) (cell : Cell) : List Nat :=
  let neighborVecs : List (Int × Int) := [(-1, 0), (0, -1), (1, 0), (0, 1)]
  let moved := neighborVecs.map (fun v => (v.1 + (cell.x : Int), v.2 + (cell.y : Int)))
  let inBounds := moved.filter (fun q =>
    0 ≤ q.1 && q.1 < (cols : Int) && 0 ≤ q.2 && q.2 < (rows : Int))
  let idxs := inBounds.map (fun q => q.2.toNat * cols + q.1.toNat)
  idxs.filter (fun i => !(processedAt grid i))

/-- Source removeWallBetween, four successive non-exclusive branches on the
coordinate difference.  In the yDiff = -1 branch the source clears the top
wall of the cell and then assigns a misspelled field (bototm) on the
neighbor, which in JavaScript creates a junk property and leaves the wall
record of the neighbor unchanged; the embedding therefore leaves the
neighbor unchanged in that branch. -/
def removeWallBetween (cell neighbor : Cell) : Cell × Cell :=
  let xDiff : Int := (neighbor.x : Int) - (cell.x : Int)
  let yDiff : Int := (neighbor.y : Int) - (cell.y : Int)
  let s1 : Cell × Cell :=
    if xDiff = 1 then
      ({ cell with walls := { cell.walls with right := false } },
       { neighbor with walls := { neighbor.walls with left := false } })
    else (cell, neighbor)
  let s2 : Cell × Cell :=
    if xDiff = -1 then
      ({ s1.1 with walls := { s1.1.walls with left := false } },
       { s1.2 with walls := { s1.2.walls with right := false } })
    else s1
  let s3 : Cell × Cell :=
    if yDiff = 1 then
      ({ s2.1 with walls := { s2.1.walls with bottom := false } },
       { s2.2 with walls := { s2.2.walls with top := false } })
    else s2
  if yDiff = -1 then
    ({ s3.1 with walls := { s3.1.walls with top := false } }, s3.2)
  else s3

/-- Models p.random over a candidate list: none on the empty list, and an
element chosen by the driver supplied number otherwise; quantifying over the
number covers every possible uniform draw. -/
def pickFrom (k : Nat) (l : List Nat) : Option Nat := l.get? (k % l.length)

/-- Source updateState, one generator step: on a drawn neighbor, remove the
wall between it and the active cell, mark the active cell processed, push
the active cell and move to the neighbor; with no candidate, mark the active
cell processed and pop when the stack is nonempty, and otherwise set
mazeComplete. -/
def updateState (rows cols k : Nat) (s : MazeState) : MazeState :=
  let active := cellAt s.grid s.activeCell
  match pickFrom k (getValidNeighbors rows cols s.grid active) with
  | some nIdx =>
    let neighbor := cellAt s.grid nIdx
    let p := removeWallBetween active neighbor
    let activeDone := { p.1 with processed := true }
    { s with
      grid := (s.grid.set s.activeCell activeDone).set nIdx p.2
    , cellStack := s.cellStack ++ [s.activeCell]
    , activeCell := nIdx }
  | none =>
    match s.cellStack.getLast? with
    | some j =>
      { s with
        grid := s.grid.set s.activeCell { active with processed := true }
      , activeCell := j
      , cellStack := s.cellStack.dropLast }
    | none => { s with mazeComplete := true }

/-- Repeated steps driven by a list of draw numbers, one per step. -/
def runSteps (rows cols : Nat) : List Nat → MazeState → MazeState
  | [], s => s
  | k :: ks, s => runSteps rows cols ks (updateState rows cols k s)

/-- A drawing primitive in pixel space: a filled rectangle with an rgb fill
color, or a stroked line segment with a grayscale stroke color. -/
inductive DrawCommand where
  | fillRect (x y w h : Nat) (r g b : Nat)
  | line (x1 y1 x2 y2 : Nat) (shade : Nat)
deriving DecidableEq, Repr

/-- Source renderLine: grid coordinates scaled by the cell size, default
stroke 255. -/
def renderLine (cw ch x1 y1 x2 y2 : Nat) : DrawCommand :=
  DrawCommand.line (x1 * cw) (y1 * ch) (x2 * cw) (y2 * ch) 255

/-- Source renderRect: a cell sized rectangle at scaled grid coordinates. -/
def renderRect (cw ch x y r g b : Nat) : DrawCommand :=
  DrawCommand.fillRect (x * cw) (y * ch) cw ch r g b

/-- Source renderCell: the base fill keyed by the processed flag, then one
line per present wall in top, right, bottom, left order. -/
def renderCell (cw ch : Nat) (c : Cell) : List DrawCommand :=
  let shade := if c.processed then 101 else 51
  [renderRect cw ch c.x c.y shade shade shade]
    ++ (if c.walls.top then [renderLine cw ch c.x c.y (c.x + 1) c.y] else [])
    ++ (if c.walls.right then [renderLine cw ch (c.x + 1) c.y (c.x + 1) (c.y + 1)] else [])
    ++ (if c.walls.bottom then [renderLine cw ch c.x (c.y + 1) (c.x + 1) (c.y + 1)] else [])
    ++ (if c.walls.left then [renderLine cw ch c.x c.y c.x (c.y + 1)] else [])

/-- Source renderGrid: every cell rendered in grid order. -/
def renderGrid (cw ch : Nat) (g : List Cell) : List DrawCommand :=
  (g.map (renderCell cw ch)).join

/-- Source renderActiveCell: a green highlight rectangle. -/
def renderActiveCell (cw ch : Nat) (c : Cell) : DrawCommand :=
  renderRect cw ch c.x c.y 0 255 0

/-- Source renderCellStack: a purple highlight rectangle per stack entry,
in stack order. -/
def renderCellStack (cw ch : Nat) (g : List Cell) (stack : List Nat) : List DrawCommand :=
  stack.map (fun i => renderRect cw ch (cellAt g i).x (cellAt g i).y 150 0 150)

/-- Source renderState: the grid pass, then the active cell highlight, then
the stack highlights, in that emission order. -/
def renderState (cw ch : Nat) (s : MazeState) : List DrawCommand :=
  renderGrid cw ch s.grid
    ++ [renderActiveCell cw ch (cellAt s.grid s.activeCell)]
    ++ renderCellStack cw ch s.grid s.cellStack

/-- Passage between the cell at (x, y) and the cell at (x + 1, y): the claim
reads a wall as present when either adjoining side still has its flag, since
the renderer draws the wall whenever either flag is set. -/
def openRight (cols : Nat) (g : List Cell) (x y : Nat) : Bool :=
  !(cellAt g (y * cols + x)).walls.right && !(cellAt g (y * cols + (x + 1))).walls.left

/-- Passage between the cell at (x, y) and the cell at (x, y + 1). -/
def openDown (cols : Nat) (g : List Cell) (x y : Nat) : Bool :=
  !(cellAt g (y * cols + x)).walls.bottom && !(cellAt g ((y + 1) * cols + x)).walls.top

/-- True when every wall present in the first record is also present in the
second: the first is the second with zero or more walls removed. -/
def wallsLeB (a b : Walls) : Bool :=
  (!a.top || b.top) && (!a.right || b.right) && (!a.bottom || b.bottom) && (!a.left || b.left)

/-- Grid adjacency of two row-major indices for a grid with cols columns:
same row and columns differing by one, or same column and rows differing by
one. -/
def adjIdx (cols i j : Nat) : Prop :=
  (i / cols = j / cols ∧ (i % cols + 1 = j % cols ∨ j % cols + 1 = i % cols)) ∨
  (i % cols = j % cols ∧ (i / cols + 1 = j / cols ∨ j / cols + 1 = i / cols))

/-- L1 distance between two row-major indices read as grid coordinates. -/
def distIdx (cols i j : Nat) : Nat :=
  (i % cols - j % cols) + (j % cols - i % cols) +
    (i / cols - j / cols) + (j / cols - i / cols)

/-- Indices of the unprocessed cells of an N cell grid. -/
def freeSet (N : Nat) (s : MazeState) : Finset Nat :=
  (Finset.range N).filter (fun i => processedAt s.grid i = false)

/-- Termination measure: twice the number of unprocessed cells other than
the active one, plus the stack height; every advance and every pop step
decreases it by exactly one. -/
def phi (N : Nat) (s : MazeState) : Nat :=
  2 * ((freeSet N s).erase s.activeCell).card + s.cellStack.length

/-- Number of stack operations (one push or one pop) a step performs. -/
def stepOps (rows cols k : Nat) (s : MazeState) : Nat :=
  match pickFrom k (getValidNeighbors rows cols s.grid (cellAt s.grid s.activeCell)) with
  | some _ => 1
  | none =>
    match s.cellStack.getLast? with
    | some _ => 1
    | none => 0

/-- Total pushes and pops over a run. -/
def runOps (rows cols : Nat) : List Nat → MazeState → Nat
  | [], _ => 0
  | k :: ks, s => stepOps rows cols k s + runOps rows cols ks (updateState rows cols k s)

/-- Number of visited transitions (false to true flips of a processed flag)
a step performs. -/
def stepFlips (rows cols k : Nat) (s : MazeState) : Nat :=
  match pickFrom k (getValidNeighbors rows cols s.grid (cellAt s.grid s.activeCell)) with
  | some _ => if processedAt s.grid s.activeCell then 0 else 1
  | none =>
    match s.cellStack.getLast? with
    | some _ => if processedAt s.grid s.activeCell then 0 else 1
    | none => 0

/-- Total visited transitions over a run. -/
def runFlips (rows cols : Nat) : List Nat → MazeState → Nat
  | [], _ => 0
  | k :: ks, s => stepFlips rows cols k s + runFlips rows cols ks (updateState rows cols k s)

/-- Reachability invariant of the generator: grid size and coordinates are
fixed, the active index and the stack entries are in range, stack entries
are processed, pairwise distinct and never the active cell, a processed
cell away from the active cell and the stack has only processed neighbors,
a state whose active cell is unprocessed while the stack is empty is the
fresh state with nothing processed, and a complete state has an empty stack
and no candidate neighbors. -/
structure Inv (rows cols : Nat) (s : MazeState) : Prop where
  len : s.grid.length = rows * cols
  coords : ∀ t, t < rows * cols →
    (cellAt s.grid t).x = t % cols ∧ (cellAt s.grid t).y = t / cols
  activeLt : s.activeCell < rows * cols
  stackLt : ∀ j ∈ s.cellStack, j < rows * cols
  stackProcessed : ∀ j ∈ s.cellStack, processedAt s.grid j = true
  stackNodup : s.cellStack.Nodup
  activeNotInStack : s.activeCell ∉ s.cellStack
  closed : ∀ t, t < rows * cols → processedAt s.grid t = true →
    t ≠ s.activeCell → t ∉ s.cellStack →
    ∀ j, j < rows * cols → adjIdx cols t j → processedAt s.grid j = true
  freshStart : processedAt s.grid s.activeCell = false → s.cellStack = [] →
    ∀ t, t < rows * cols → processedAt s.grid t = false
  completeStuck : s.mazeComplete = true → s.cellStack = [] ∧
    getValidNeighbors rows cols s.grid (cellAt s.grid s.activeCell) = []

lemma cellAt_set_self (g : List Cell) (i : Nat) (a : Cell) (h : i < g.length) :
    cellAt (g.set i a) i = a := by
  unfold cellAt
  rw [List.getD_eq_getD_get?, List.get?_set_eq_of_lt _ h]
  rfl

lemma cellAt_set_other (g : List Cell) (i j : Nat) (a : Cell) (h : i ≠ j) :
    cellAt (g.set i a) j = cellAt g j := by
  unfold cellAt
  rw [List.getD_eq_getD_get?, List.get?_set_ne _ _ h, ← List.getD_eq_getD_get?]

lemma xprod_append_singleton (as : List Nat) (a : Nat) (bs : List Nat) :
    xprod (as ++ [a]) bs = xprod as bs ++ bs.map (fun b => (a, b)) := by
  induction as with
  | nil => simp [xprod]
  | cons a2 as ih => simp [xprod, ih]

lemma createGrid_succ (rows cols : Nat) :
    createGrid (rows + 1) cols =
      createGrid rows cols ++ (List.range cols).map (fun x => createCell x rows) := by
  unfold createGrid
  rw [List.range_succ, xprod_append_singleton]
  simp [List.map_map, Function.comp]

lemma createGrid_length (rows cols : Nat) : (createGrid rows cols).length = rows * cols := by
  induction rows with
  | zero => rw [Nat.zero_mul]; rfl
  | succ r ih => rw [createGrid_succ]; simp [ih, Nat.succ_mul]

lemma createGrid_cellAt (rows cols x y : Nat) (hx : x < cols) (hy : y < rows) :
    cellAt (createGrid rows cols) (y * cols + x) = createCell x y := by
  induction rows with
  | zero => omega
  | succ r ih =>
    rw [createGrid_succ]
    unfold cellAt at ih ⊢
    rcases Nat.lt_or_ge y r with hyr | hyr
    · have hlt : y * cols + x < (createGrid r cols).length := by
        rw [createGrid_length]
        have h1 : y + 1 ≤ r := hyr
        have h2 : (y + 1) * cols ≤ r * cols := Nat.mul_le_mul_right cols h1
        rw [Nat.succ_mul] at h2
        omega
      rw [List.getD_append _ _ _ _ hlt]
      exact ih hyr
    · have hye : y = r := by omega
      subst hye
      have hge : (createGrid y cols).length ≤ y * cols + x := by
        rw [createGrid_length]; omega
      rw [List.getD_append_right _ _ _ _ hge, createGrid_length]
      have hsub : y * cols + x - y * cols = x := by omega
      rw [hsub, List.getD_eq_getD_get?, List.get?_map, List.get?_range hx]
      rfl

lemma createGrid_cellAt_idx (rows cols i : Nat) (hc : 0 < cols) (hi : i < rows * cols) :
    cellAt (createGrid rows cols) i = createCell (i % cols) (i / cols) := by
  have hx : i % cols < cols := Nat.mod_lt _ hc
  have hy : i / cols < rows := by
    rw [Nat.div_lt_iff_lt_mul hc]
    calc i < rows * cols := hi
    _ = rows * cols := rfl
  have h := createGrid_cellAt rows cols (i % cols) (i / cols) hx hy
  rwa [Nat.div_add_mod'] at h

lemma xprod_nil_right (as : List Nat) : xprod as [] = [] := by
  induction as with
  | nil => rfl
  | cons a as ih => simp [xprod, ih]

/-- C9: createState builds a grid of exactly rows times cols cells in
row-major order with cell (x, y) at index y * cols + x, every cell carrying
all four walls and an unset visited flag, the active cell at grid index 0
holding cell (0, 0), an empty stack, and mazeComplete false. -/
theorem c9_initialization (rows cols : Nat) (hr : 1 ≤ rows) (hc : 1 ≤ cols) :
    (createState rows cols).grid.length = rows * cols ∧
    (∀ x y, x < cols → y < rows →
      cellAt (createState rows cols).grid (y * cols + x) = createCell x y) ∧
    (∀ x y : Nat, (createCell x y).walls.top = true ∧ (createCell x y).walls.right = true ∧
      (createCell x y).walls.bottom = true ∧ (createCell x y).walls.left = true ∧
      (createCell x y).processed = false) ∧
    (createState rows cols).activeCell = 0 ∧
    cellAt (createState rows cols).grid 0 = createCell 0 0 ∧
    (createState rows cols).cellStack = [] ∧
    (createState rows cols).mazeComplete = false := by
  refine ⟨createGrid_length rows cols, ?_, ?_, rfl, ?_, rfl, rfl⟩
  · intro x y hx hy; exact createGrid_cellAt rows cols x y hx hy
  · intro x y; exact ⟨rfl, rfl, rfl, rfl, rfl⟩
  · have h := createGrid_cellAt rows cols 0 0 hc hr
    simpa using h

/-- C9 witness: the initialization facts at a concrete 2 by 2 grid. -/
theorem c9_initialization_witness :
    (createState 2 2).grid.length = 2 * 2 ∧
    cellAt (createState 2 2).grid (1 * 2 + 1) = createCell 1 1 ∧
    (createState 2 2).activeCell = 0 ∧
    (createState 2 2).mazeComplete = false := by
  have h := c9_initialization 2 2 (by decide) (by decide)
  exact ⟨h.1, h.2.1 1 1 (by decide) (by decide), h.2.2.2.1, h.2.2.2.2.2.2⟩

/-- C5 amended: createState performs no validation; for a zero row or
column count it does not reject the call but returns a degenerate state
whose grid is empty, with an empty stack and mazeComplete false.  In the
source the same call also leaves the active cell reference undefined. -/
theorem c5_amended_no_validation (rows cols : Nat) (h : rows = 0 ∨ cols = 0) :
    (createState rows cols).grid = [] ∧
    (createState rows cols).cellStack = [] ∧
    (createState rows cols).mazeComplete = false := by
  refine ⟨?_, rfl, rfl⟩
  rcases h with h | h <;> subst h
  · rfl
  · simp [createState, createGrid, xprod_nil_right]

/-- C5 amended witness: the zero column case at rows = 5. -/
theorem c5_amended_no_validation_witness :
    (createState 5 0).grid = [] ∧ (createState 5 0).cellStack = [] ∧
    (createState 5 0).mazeComplete = false :=
  c5_amended_no_validation 5 0 (Or.inr rfl)

/-- C1: the code violates wall symmetry.  On a 2 by 2 grid the draw numbers
[1, 0, 0] make the third advance move upward from cell (1, 1), grid index 3,
to cell (1, 0), grid index 1; the source clears the top wall of (1, 1) but,
because the assignment targets a misspelled field, leaves the bottom wall of
(1, 0) present, so the two flags facing each other disagree. -/
theorem c1_upward_wall_asymmetry :
    (cellAt (runSteps 2 2 [1, 0, 0] (createState 2 2)).grid 3).walls.top = false ∧
    (cellAt (runSteps 2 2 [1, 0, 0] (createState 2 2)).grid 1).walls.bottom = true := by
  decide

/-- C2: the completed maze is not a spanning tree.  On a 2 by 2 grid the
draw numbers [1, 0, 0, 0, 0, 0, 0] complete the generation, yet cell (1, 0)
keeps a wall toward both of its neighbors because its upward passage was
only half carved, so the passage graph leaves cell (1, 0) isolated and has
two edges instead of three. -/
theorem c2_completed_maze_disconnected :
    (runSteps 2 2 [1, 0, 0, 0, 0, 0, 0] (createState 2 2)).mazeComplete = true ∧
    openRight 2 (runSteps 2 2 [1, 0, 0, 0, 0, 0, 0] (createState 2 2)).grid 0 0 = false ∧
    openDown 2 (runSteps 2 2 [1, 0, 0, 0, 0, 0, 0] (createState 2 2)).grid 1 0 = false := by
  decide

/-- C3 counterexample: on a 1 by 1 grid the very first step takes the branch
that sets mazeComplete without marking the active cell, so generation
completes while the unique cell was never visited, refuting both the claim
that every cell flips to visited before completion and the claim that the
final step marks the active cell. -/
theorem c3_counterexample_one_cell_never_visited :
    (runSteps 1 1 [0] (createState 1 1)).mazeComplete = true ∧
    processedAt (runSteps 1 1 [0] (createState 1 1)).grid 0 = false := by
  decide

/-- C5 counterexample: createState 0 5 performs no validation and returns a
MazeState whose grid is empty, so a partial state is produced instead of the
call being rejected. -/
theorem c5_counterexample_partial_state_returned :
    (createState 0 5).grid = [] ∧ (createState 0 5).mazeComplete = false ∧
    (createState 0 5).cellStack = [] := by
  decide

/-- C4 counterexample: after one step on a 2 by 2 grid the stack holds cell
(0, 0) and the active cell is (0, 1); the last command renderState emits is
the purple stack highlight of (0, 0), which differs from the green active
highlight, so the active highlight is not the last command emitted. -/
theorem c4_counterexample_active_not_last :
    (renderState 30 30 (runSteps 2 2 [1] (createState 2 2))).getLast? =
      some (DrawCommand.fillRect 0 0 30 30 150 0 150) ∧
    renderActiveCell 30 30
        (cellAt (runSteps 2 2 [1] (createState 2 2)).grid
          (runSteps 2 2 [1] (createState 2 2)).activeCell) =
      DrawCommand.fillRect 0 30 30 30 0 255 0 ∧
    (DrawCommand.fillRect 0 0 30 30 150 0 150 : DrawCommand) ≠
      DrawCommand.fillRect 0 30 30 30 0 255 0 := by
  decide

/-- C4 amended: renderState emits all per-cell commands in grid order
first, then exactly one filled rectangle for the active cell, and then one
highlight rectangle per stack entry in stack order; the active highlight is
emitted immediately after the grid pass and before the stack highlights,
not last. -/
theorem c4_amended_render_order (cw ch : Nat) (s : MazeState) :
    (renderState cw ch s).take (renderGrid cw ch s.grid).length = renderGrid cw ch s.grid ∧
    (renderState cw ch s).get? (renderGrid cw ch s.grid).length =
      some (renderActiveCell cw ch (cellAt s.grid s.activeCell)) ∧
    (renderState cw ch s).drop ((renderGrid cw ch s.grid).length + 1) =
      renderCellStack cw ch s.grid s.cellStack := by
  unfold renderState
  refine ⟨?_, ?_, ?_⟩
  · rw [List.append_assoc, List.take_left]
  · rw [List.append_assoc, List.get?_append_right (Nat.le_refl _)]
    simp
  · have h : (renderGrid cw ch s.grid ++
        [renderActiveCell cw ch (cellAt s.grid s.activeCell)]).length =
        (renderGrid cw ch s.grid).length + 1 := by simp
    rw [← h, List.drop_left]

lemma bool_not_or_self (b : Bool) : (!b || b) = true := by cases b <;> rfl

lemma wallsLeB_refl (w : Walls) : wallsLeB w w = true := by
  simp [wallsLeB, bool_not_or_self]

lemma removeWallBetween_fst_le (c n : Cell) :
    wallsLeB (removeWallBetween c n).1.walls c.walls = true := by
  simp only [removeWallBetween]
  split_ifs <;> simp [wallsLeB, bool_not_or_self]

lemma removeWallBetween_snd_le (c n : Cell) :
    wallsLeB (removeWallBetween c n).2.walls n.walls = true := by
  simp only [removeWallBetween]
  split_ifs <;> simp [wallsLeB, bool_not_or_self]

lemma cellAt_of_length_le (g : List Cell) (i : Nat) (h : g.length ≤ i) :
    cellAt g i = defaultCell := List.getD_eq_default _ _ h

lemma updateState_advance (rows cols k : Nat) (s : MazeState) (nIdx : Nat)
    (hp : pickFrom k (getValidNeighbors rows cols s.grid (cellAt s.grid s.activeCell)) =
      some nIdx) :
    updateState rows cols k s =
      { s with
        grid := (s.grid.set s.activeCell
            { (removeWallBetween (cellAt s.grid s.activeCell)
                (cellAt s.grid nIdx)).1 with processed := true }).set
          nIdx (removeWallBetween (cellAt s.grid s.activeCell) (cellAt s.grid nIdx)).2
      , cellStack := s.cellStack ++ [s.activeCell]
      , activeCell := nIdx } := by
  simp only [updateState]
  rw [hp]

lemma updateState_pop (rows cols k : Nat) (s : MazeState) (j : Nat)
    (hp : pickFrom k (getValidNeighbors rows cols s.grid (cellAt s.grid s.activeCell)) = none)
    (hl : s.cellStack.getLast? = some j) :
    updateState rows cols k s =
      { s with
        grid := s.grid.set s.activeCell
          { cellAt s.grid s.activeCell with processed := true }
      , activeCell := j
      , cellStack := s.cellStack.dropLast } := by
  simp only [updateState]
  rw [hp, hl]

lemma updateState_finish (rows cols k : Nat) (s : MazeState)
    (hp : pickFrom k (getValidNeighbors rows cols s.grid (cellAt s.grid s.activeCell)) = none)
    (hl : s.cellStack.getLast? = none) :
    updateState rows cols k s = { s with mazeComplete := true } := by
  simp only [updateState]
  rw [hp, hl]

/-- C10: every step only removes walls: each wall flag of each cell either
keeps its value or moves from present to absent, never back, at every index
and for every state and draw number. -/
theorem c10_wall_monotonicity (rows cols k : Nat) (s : MazeState) (i : Nat) :
    wallsLeB (cellAt (updateState rows cols k s).grid i).walls
      (cellAt s.grid i).walls = true := by
  cases hp : pickFrom k (getValidNeighbors rows cols s.grid (cellAt s.grid s.activeCell)) with
  | some nIdx =>
    rw [updateState_advance rows cols k s nIdx hp]
    by_cases hlt : i < s.grid.length
    · by_cases hin : i = nIdx
      · subst hin
        rw [cellAt_set_self _ _ _ (by simpa using hlt)]
        exact removeWallBetween_snd_le _ _
      · rw [cellAt_set_other _ _ _ _ (Ne.symm hin)]
        by_cases hia : i = s.activeCell
        · subst hia
          rw [cellAt_set_self _ _ _ hlt]
          exact removeWallBetween_fst_le _ _
        · rw [cellAt_set_other _ _ _ _ (Ne.symm hia)]
          exact wallsLeB_refl _
    · have hle : s.grid.length ≤ i := Nat.le_of_not_lt hlt
      rw [cellAt_of_length_le _ _ (by simpa using hle),
        cellAt_of_length_le _ _ hle]
      exact wallsLeB_refl _
  | none =>
    cases hl : s.cellStack.getLast? with
    | some j =>
      rw [updateState_pop rows cols k s j hp hl]
      by_cases hlt : i < s.grid.length
      · by_cases hia : i = s.activeCell
        · subst hia
          rw [cellAt_set_self _ _ _ hlt]
          exact wallsLeB_refl _
        · rw [cellAt_set_other _ _ _ _ (Ne.symm hia)]
          exact wallsLeB_refl _
      · have hle : s.grid.length ≤ i := Nat.le_of_not_lt hlt
        rw [cellAt_of_length_le _ _ (by simpa using hle),
          cellAt_of_length_le _ _ hle]
        exact wallsLeB_refl _
    | none =>
      rw [updateState_finish rows cols k s hp hl]
      exact wallsLeB_refl _

lemma pickFrom_mem (k : Nat) (l : List Nat) (n : Nat) (h : pickFrom k l = some n) : n ∈ l := by
  unfold pickFrom at h
  exact List.get?_mem h

lemma pickFrom_eq_none (k : Nat) (l : List Nat) (h : pickFrom k l = none) : l = [] := by
  cases l with
  | nil => rfl
  | cons a t =>
    exfalso
    unfold pickFrom at h
    have hlt : k % (a :: t).length < (a :: t).length := Nat.mod_lt _ (by simp)
    rw [List.get?_eq_get hlt] at h
    exact Option.noConfusion h

lemma idx_mod_div (cols q r : Nat) (hc : 0 < cols) (hr : r < cols) :
    (q * cols + r) % cols = r ∧ (q * cols + r) / cols = q := by
  rw [Nat.add_comm (q * cols) r]
  constructor
  · rw [Nat.add_mul_mod_self_right]
    exact Nat.mod_eq_of_lt hr
  · rw [Nat.add_mul_div_right _ _ hc, Nat.div_eq_of_lt hr, Nat.zero_add]

lemma idx_lt (rows cols q r : Nat) (hq : q < rows) (hr : r < cols) :
    q * cols + r < rows * cols := by
  have h1 : (q + 1) * cols ≤ rows * cols := Nat.mul_le_mul_right cols hq
  rw [Nat.succ_mul] at h1
  omega

lemma mem_getValidNeighbors (rows cols : Nat) (grid : List Cell) (i n : Nat)
    (hc : 0 < cols)
    (hco : ∀ t, t < rows * cols →
      (cellAt grid t).x = t % cols ∧ (cellAt grid t).y = t / cols)
    (hi : i < rows * cols) :
    n ∈ getValidNeighbors rows cols grid (cellAt grid i) ↔
      n < rows * cols ∧ adjIdx cols i n ∧ processedAt grid n = false := by
  obtain ⟨hxi, hyi⟩ := hco i hi
  have hxlt : i % cols < cols := Nat.mod_lt _ hc
  have hylt : i / cols < rows := by
    rw [Nat.div_lt_iff_lt_mul hc]
    exact hi
  simp only [getValidNeighbors, List.mem_filter, List.mem_map, List.mem_cons,
    List.not_mem_nil, or_false, Bool.and_eq_true, decide_eq_true_eq, hxi, hyi,
    exists_eq_or_imp, exists_eq_left, Bool.not_eq_true']
  constructor
  · rintro ⟨⟨a, ⟨heq, hbnd⟩, hidx⟩, hproc⟩
    rcases heq with h | h | h | h <;> subst h <;>
      simp only [] at hbnd hidx <;> obtain ⟨⟨⟨hb1, hb2⟩, hb3⟩, hb4⟩ := hbnd
    · have ht1 : ((-1 : Int) + ((i % cols : Nat) : Int)).toNat = i % cols - 1 := by omega
      have ht2 : ((0 : Int) + ((i / cols : Nat) : Int)).toNat = i / cols := by omega
      rw [ht1, ht2] at hidx
      subst hidx
      obtain ⟨hm, hd⟩ := idx_mod_div cols (i / cols) (i % cols - 1) hc (by omega)
      exact ⟨idx_lt rows cols _ _ hylt (by omega), Or.inl ⟨hd.symm, Or.inr (by omega)⟩, hproc⟩
    · have ht1 : ((0 : Int) + ((i % cols : Nat) : Int)).toNat = i % cols := by omega
      have ht2 : ((-1 : Int) + ((i / cols : Nat) : Int)).toNat = i / cols - 1 := by omega
      rw [ht1, ht2] at hidx
      subst hidx
      obtain ⟨hm, hd⟩ := idx_mod_div cols (i / cols - 1) (i % cols) hc hxlt
      exact ⟨idx_lt rows cols _ _ (by omega) hxlt, Or.inr ⟨hm.symm, Or.inr (by omega)⟩, hproc⟩
    · have ht1 : ((1 : Int) + ((i % cols : Nat) : Int)).toNat = i % cols + 1 := by omega
      have ht2 : ((0 : Int) + ((i / cols : Nat) : Int)).toNat = i / cols := by omega
      rw [ht1, ht2] at hidx
      subst hidx
      obtain ⟨hm, hd⟩ := idx_mod_div cols (i / cols) (i % cols + 1) hc (by omega)
      exact ⟨idx_lt rows cols _ _ hylt (by omega), Or.inl ⟨hd.symm, Or.inl (by omega)⟩, hproc⟩
    · have ht1 : ((0 : Int) + ((i % cols : Nat) : Int)).toNat = i % cols := by omega
      have ht2 : ((1 : Int) + ((i / cols : Nat) : Int)).toNat = i / cols + 1 := by omega
      rw [ht1, ht2] at hidx
      subst hidx
      obtain ⟨hm, hd⟩ := idx_mod_div cols (i / cols + 1) (i % cols) hc hxlt
      exact ⟨idx_lt rows cols _ _ (by omega) hxlt, Or.inr ⟨hm.symm, Or.inl (by omega)⟩, hproc⟩
  · rintro ⟨hn, hadj, hproc⟩
    refine ⟨?_, hproc⟩
    have hnm : n % cols < cols := Nat.mod_lt _ hc
    have hnd : n / cols < rows := by rw [Nat.div_lt_iff_lt_mul hc]; exact hn
    have hni : n / cols * cols + n % cols = n := Nat.div_add_mod' n cols
    rcases hadj with ⟨hrow, hcase⟩ | ⟨hcol, hcase⟩
    · rcases hcase with hcase | hcase
      · refine ⟨((1 : Int) + (i % cols : Nat), (0 : Int) + (i / cols : Nat)),
          ⟨Or.inr (Or.inr (Or.inl rfl)), ?_⟩, ?_⟩
        · refine ⟨⟨⟨?_, ?_⟩, ?_⟩, ?_⟩ <;> simp <;> omega
        have ht1 : ((1 : Int) + ((i % cols : Nat) : Int)).toNat = i % cols + 1 := by omega
        have ht2 : ((0 : Int) + ((i / cols : Nat) : Int)).toNat = i / cols := by omega
        rw [ht1, ht2, hcase, hrow]
        exact hni
      · refine ⟨((-1 : Int) + (i % cols : Nat), (0 : Int) + (i / cols : Nat)),
          ⟨Or.inl rfl, ?_⟩, ?_⟩
        · refine ⟨⟨⟨?_, ?_⟩, ?_⟩, ?_⟩ <;> simp <;> omega
        have ht1 : ((-1 : Int) + ((i % cols : Nat) : Int)).toNat = i % cols - 1 := by omega
        have ht2 : ((0 : Int) + ((i / cols : Nat) : Int)).toNat = i / cols := by omega
        rw [ht1, ht2, hrow]
        have hm : i % cols - 1 = n % cols := by omega
        rw [hm]
        exact hni
    · rcases hcase with hcase | hcase
      · refine ⟨((0 : Int) + (i % cols : Nat), (1 : Int) + (i / cols : Nat)),
          ⟨Or.inr (Or.inr (Or.inr rfl)), ?_⟩, ?_⟩
        · refine ⟨⟨⟨?_, ?_⟩, ?_⟩, ?_⟩ <;> simp <;> omega
        have ht1 : ((0 : Int) + ((i % cols : Nat) : Int)).toNat = i % cols := by omega
        have ht2 : ((1 : Int) + ((i / cols : Nat) : Int)).toNat = i / cols + 1 := by omega
        rw [ht1, ht2, hcase, hcol]
        exact hni
      · refine ⟨((0 : Int) + (i % cols : Nat), (-1 : Int) + (i / cols : Nat)),
          ⟨Or.inr (Or.inl rfl), ?_⟩, ?_⟩
        · have hb : 1 ≤ i / cols := by rw [← hcase]; exact Nat.le_add_left _ _
          have hc0 : (0 : Int) ≤ ((i % cols : Nat) : Int) := Int.natCast_nonneg _
          have hc1 : ((i % cols : Nat) : Int) < (cols : Int) := by exact_mod_cast hxlt
          have hc2 : (1 : Int) ≤ ((i / cols : Nat) : Int) := by exact_mod_cast hb
          have hc3 : ((i / cols : Nat) : Int) < (rows : Int) := by exact_mod_cast hylt
          refine ⟨⟨⟨?_, ?_⟩, ?_⟩, ?_⟩ <;> dsimp only <;> linarith
        have hb : 1 ≤ i / cols := by rw [← hcase]; exact Nat.le_add_left _ _
        have ht1 : ((0 : Int) + ((i % cols : Nat) : Int)).toNat = i % cols := by omega
        have ht2 : ((-1 : Int) + ((i / cols : Nat) : Int)).toNat = i / cols - 1 := by
          rw [Int.add_comm, ← Int.sub_eq_add_neg, ← Nat.cast_one, ← Int.natCast_sub hb]
          exact Int.toNat_natCast _
        rw [ht1, ht2, hcol]
        have hd : i / cols - 1 = n / cols := by rw [← hcase, Nat.add_sub_cancel]
        rw [hd]
        exact hni

lemma processedAt_set_self (g : List Cell) (i : Nat) (a : Cell) (h : i < g.length) :
    processedAt (g.set i a) i = a.processed := by
  rw [processedAt, cellAt_set_self _ _ _ h]

lemma processedAt_set_other (g : List Cell) (i j : Nat) (a : Cell) (h : i ≠ j) :
    processedAt (g.set i a) j = processedAt g j := by
  rw [processedAt, cellAt_set_other _ _ _ _ h, processedAt]

lemma removeWallBetween_fst_fields (c n : Cell) :
    (removeWallBetween c n).1.x = c.x ∧ (removeWallBetween c n).1.y = c.y ∧
      (removeWallBetween c n).1.processed = c.processed := by
  simp only [removeWallBetween]
  split_ifs <;> exact ⟨rfl, rfl, rfl⟩

lemma removeWallBetween_snd_fields (c n : Cell) :
    (removeWallBetween c n).2.x = n.x ∧ (removeWallBetween c n).2.y = n.y ∧
      (removeWallBetween c n).2.processed = n.processed := by
  simp only [removeWallBetween]
  split_ifs <;> exact ⟨rfl, rfl, rfl⟩

lemma adjIdx_ne (cols i j : Nat) (h : adjIdx cols i j) : i ≠ j := by
  rcases h with ⟨h1, h2 | h2⟩ | ⟨h1, h2 | h2⟩ <;> intro he <;> subst he <;> omega

lemma adjIdx_symm (cols i j : Nat) (h : adjIdx cols i j) : adjIdx cols j i := by
  rcases h with ⟨h1, h2⟩ | ⟨h1, h2⟩
  · exact Or.inl ⟨h1.symm, h2.symm⟩
  · exact Or.inr ⟨h1.symm, h2.symm⟩

lemma no_candidates_all_processed (rows cols : Nat) (s : MazeState)
    (hc : 0 < cols) (hs : Inv rows cols s)
    (hemp : getValidNeighbors rows cols s.grid (cellAt s.grid s.activeCell) = [])
    (j : Nat) (hj : j < rows * cols) (hadj : adjIdx cols s.activeCell j) :
    processedAt s.grid j = true := by
  by_contra hne
  have hmem : j ∈ getValidNeighbors rows cols s.grid (cellAt s.grid s.activeCell) :=
    (mem_getValidNeighbors rows cols s.grid s.activeCell j hc hs.coords hs.activeLt).2
      ⟨hj, hadj, Bool.not_eq_true _ ▸ hne⟩
  rw [hemp] at hmem
  exact absurd hmem (List.not_mem_nil _)


lemma inv_createState (rows cols : Nat) (hr : 0 < rows) (hc : 0 < cols) :
    Inv rows cols (createState rows cols) := by
  have hN : 0 < rows * cols := Nat.mul_pos hr hc
  have hcoords : ∀ t, t < rows * cols →
      (cellAt (createState rows cols).grid t).x = t % cols ∧
      (cellAt (createState rows cols).grid t).y = t / cols := by
    intro t ht
    have h := createGrid_cellAt_idx rows cols t hc ht
    rw [show (createState rows cols).grid = createGrid rows cols from rfl, h]
    exact ⟨rfl, rfl⟩
  have hunproc : ∀ t, t < rows * cols →
      processedAt (createState rows cols).grid t = false := by
    intro t ht
    have h := createGrid_cellAt_idx rows cols t hc ht
    rw [processedAt, show (createState rows cols).grid = createGrid rows cols from rfl, h]
    rfl
  refine
    { len := createGrid_length rows cols
    , coords := hcoords
    , activeLt := hN
    , stackLt := by intro j hj; exact absurd hj (List.not_mem_nil _)
    , stackProcessed := by intro j hj; exact absurd hj (List.not_mem_nil _)
    , stackNodup := List.nodup_nil
    , activeNotInStack := List.not_mem_nil _
    , closed := ?_
    , freshStart := by intro _ _ t ht; exact hunproc t ht
    , completeStuck := by intro h; exact absurd h (by simp [createState]) }
  intro t ht htproc _ _
  rw [hunproc t ht] at htproc
  exact absurd htproc (by simp)


lemma inv_updateState (rows cols k : Nat) (s : MazeState) (hr : 0 < rows) (hc : 0 < cols)
    (hs : Inv rows cols s) : Inv rows cols (updateState rows cols k s) := by
  have hN : 0 < rows * cols := Nat.mul_pos hr hc
  have hlen : s.grid.length = rows * cols := hs.len
  have hactlen : s.activeCell < s.grid.length := by rw [hlen]; exact hs.activeLt
  cases hp : pickFrom k (getValidNeighbors rows cols s.grid (cellAt s.grid s.activeCell)) with
  | some nIdx =>
    rw [updateState_advance rows cols k s nIdx hp]
    have hmem := pickFrom_mem _ _ _ hp
    obtain ⟨hnlt, hnadj, hnproc⟩ :=
      (mem_getValidNeighbors rows cols s.grid s.activeCell nIdx hc hs.coords hs.activeLt).1 hmem
    have hne : s.activeCell ≠ nIdx := adjIdx_ne cols s.activeCell nIdx hnadj
    have hnlen : nIdx < s.grid.length := by rw [hlen]; exact hnlt
    have hflds1 := removeWallBetween_fst_fields (cellAt s.grid s.activeCell) (cellAt s.grid nIdx)
    have hflds2 := removeWallBetween_snd_fields (cellAt s.grid s.activeCell) (cellAt s.grid nIdx)
    have hlen1 : (s.grid.set s.activeCell
        { (removeWallBetween (cellAt s.grid s.activeCell) (cellAt s.grid nIdx)).1 with
          processed := true }).length = s.grid.length := List.length_set _ _ _
    -- description of the new grid
    have hcell_n : cellAt ((s.grid.set s.activeCell
        { (removeWallBetween (cellAt s.grid s.activeCell) (cellAt s.grid nIdx)).1 with
          processed := true }).set nIdx
          (removeWallBetween (cellAt s.grid s.activeCell) (cellAt s.grid nIdx)).2) nIdx =
        (removeWallBetween (cellAt s.grid s.activeCell) (cellAt s.grid nIdx)).2 := by
      exact cellAt_set_self _ _ _ (by rw [hlen1]; exact hnlen)
    have hcell_a : cellAt ((s.grid.set s.activeCell
        { (removeWallBetween (cellAt s.grid s.activeCell) (cellAt s.grid nIdx)).1 with
          processed := true }).set nIdx
          (removeWallBetween (cellAt s.grid s.activeCell) (cellAt s.grid nIdx)).2)
          s.activeCell =
        { (removeWallBetween (cellAt s.grid s.activeCell) (cellAt s.grid nIdx)).1 with
          processed := true } := by
      rw [cellAt_set_other _ _ _ _ (Ne.symm hne)]
      exact cellAt_set_self _ _ _ hactlen
    have hcell_o : ∀ t, t ≠ nIdx → t ≠ s.activeCell →
        cellAt ((s.grid.set s.activeCell
          { (removeWallBetween (cellAt s.grid s.activeCell) (cellAt s.grid nIdx)).1 with
            processed := true }).set nIdx
            (removeWallBetween (cellAt s.grid s.activeCell) (cellAt s.grid nIdx)).2) t =
          cellAt s.grid t := by
      intro t h1 h2
      rw [cellAt_set_other _ _ _ _ (Ne.symm h1), cellAt_set_other _ _ _ _ (Ne.symm h2)]
    refine
      { len := by simp only [List.length_set]; exact hlen
      , coords := ?_
      , activeLt := hnlt
      , stackLt := ?_
      , stackProcessed := ?_
      , stackNodup := ?_
      , activeNotInStack := ?_
      , closed := ?_
      , freshStart := ?_
      , completeStuck := ?_ }
    · -- coords
      intro t ht
      by_cases h1 : t = nIdx
      · subst h1
        rw [hcell_n]
        obtain ⟨hx, hy, _⟩ := hflds2
        rw [hx, hy]
        exact hs.coords t ht
      · by_cases h2 : t = s.activeCell
        · subst h2
          rw [hcell_a]
          obtain ⟨hx, hy, _⟩ := hflds1
          refine ⟨?_, ?_⟩
          · show (removeWallBetween (cellAt s.grid s.activeCell) (cellAt s.grid nIdx)).1.x =
              s.activeCell % cols
            rw [hx]; exact (hs.coords s.activeCell ht).1
          · show (removeWallBetween (cellAt s.grid s.activeCell) (cellAt s.grid nIdx)).1.y =
              s.activeCell / cols
            rw [hy]; exact (hs.coords s.activeCell ht).2
        · rw [hcell_o t h1 h2]
          exact hs.coords t ht
    · -- stackLt
      intro j hj
      rcases List.mem_append.1 hj with hj | hj
      · exact hs.stackLt j hj
      · rw [List.mem_singleton.1 hj]; exact hs.activeLt
    · -- stackProcessed
      intro j hj
      rcases List.mem_append.1 hj with hj | hj
      · have hproc := hs.stackProcessed j hj
        have hjn : j ≠ nIdx := by
          intro he; rw [he, hnproc] at hproc; exact Bool.noConfusion hproc
        have hja : j ≠ s.activeCell := fun he => hs.activeNotInStack (he ▸ hj)
        rw [processedAt, hcell_o j hjn hja]
        exact hproc
      · rw [List.mem_singleton.1 hj, processedAt, hcell_a]
    · -- stackNodup
      rw [List.nodup_append]
      exact ⟨hs.stackNodup, List.nodup_singleton _,
        fun a ha hb => hs.activeNotInStack ((List.mem_singleton.1 hb) ▸ ha)⟩
    · -- activeNotInStack
      intro hmem2
      rcases List.mem_append.1 hmem2 with hj | hj
      · have := hs.stackProcessed nIdx hj
        rw [hnproc] at this
        exact Bool.noConfusion this
      · exact hne (List.mem_singleton.1 hj).symm
    · -- closed
      intro t ht htproc htne htnotin j hj hadj
      have htn : t ≠ nIdx := htne
      have hta : t ≠ s.activeCell := by
        intro he
        exact htnotin (he ▸ List.mem_append_right _ (List.mem_singleton_self _))
      have htstack : t ∉ s.cellStack := fun hmem3 =>
        htnotin (List.mem_append_left _ hmem3)
      rw [processedAt, hcell_o t htn hta] at htproc
      have hjold := hs.closed t ht htproc hta htstack j hj hadj
      by_cases hj1 : j = nIdx
      · rw [hj1, hnproc] at hjold
        exact Bool.noConfusion hjold
      · by_cases hj2 : j = s.activeCell
        · rw [hj2, processedAt, hcell_a]
        · rw [processedAt, hcell_o j hj1 hj2]
          exact hjold
    · -- freshStart
      intro _ hstk
      exact absurd hstk (by simp)
    · -- completeStuck
      intro hcmp
      obtain ⟨_, hemp⟩ := hs.completeStuck hcmp
      rw [hemp] at hmem
      exact absurd hmem (List.not_mem_nil _)
  | none =>
    have hempty := pickFrom_eq_none _ _ hp
    cases hl : s.cellStack.getLast? with
    | some j =>
      rw [updateState_pop rows cols k s j hp hl]
      have hdecomp : s.cellStack.dropLast ++ [j] = s.cellStack :=
        List.dropLast_append_getLast? j (Option.mem_def.2 hl)
      have hjmem : j ∈ s.cellStack := by
        rw [← hdecomp]; exact List.mem_append_right _ (List.mem_singleton_self _)
      have hjlt := hs.stackLt j hjmem
      have hjproc := hs.stackProcessed j hjmem
      have hjact : j ≠ s.activeCell := fun he => hs.activeNotInStack (he ▸ hjmem)
      have hnd := hs.stackNodup
      rw [← hdecomp, List.nodup_append] at hnd
      obtain ⟨hnd1, _, hdisj⟩ := hnd
      have hcell_a2 : cellAt (s.grid.set s.activeCell
          { cellAt s.grid s.activeCell with processed := true }) s.activeCell =
          { cellAt s.grid s.activeCell with processed := true } :=
        cellAt_set_self _ _ _ hactlen
      have hcell_o2 : ∀ t, t ≠ s.activeCell →
          cellAt (s.grid.set s.activeCell
            { cellAt s.grid s.activeCell with processed := true }) t = cellAt s.grid t := by
        intro t h1
        rw [cellAt_set_other _ _ _ _ (Ne.symm h1)]
      refine
        { len := by simp only [List.length_set]; exact hlen
        , coords := ?_
        , activeLt := hjlt
        , stackLt := ?_
        , stackProcessed := ?_
        , stackNodup := List.Sublist.nodup (List.dropLast_sublist _) hs.stackNodup
        , activeNotInStack := ?_
        , closed := ?_
        , freshStart := ?_
        , completeStuck := ?_ }
      · -- coords
        intro t ht
        by_cases h1 : t = s.activeCell
        · subst h1
          rw [hcell_a2]
          exact hs.coords s.activeCell ht
        · rw [hcell_o2 t h1]
          exact hs.coords t ht
      · -- stackLt
        intro m hm
        exact hs.stackLt m (by rw [← hdecomp]; exact List.mem_append_left _ hm)
      · -- stackProcessed
        intro m hm
        have hmmem : m ∈ s.cellStack := by
          rw [← hdecomp]; exact List.mem_append_left _ hm
        have hma : m ≠ s.activeCell := fun he => hs.activeNotInStack (he ▸ hmmem)
        rw [processedAt, hcell_o2 m hma]
        exact hs.stackProcessed m hmmem
      · -- activeNotInStack
        intro hmem2
        exact hdisj hmem2 (List.mem_singleton_self _)
      · -- closed
        intro t ht htproc htne htnotin jj hjj hadj
        by_cases h1 : t = s.activeCell
        · subst h1
          have hjjold := no_candidates_all_processed rows cols s hc hs hempty jj hjj hadj
          by_cases h2 : jj = s.activeCell
          · rw [h2, processedAt, hcell_a2]
          · rw [processedAt, hcell_o2 jj h2]
            exact hjjold
        · have htproc2 : processedAt s.grid t = true := by
            rw [processedAt, hcell_o2 t h1] at htproc
            exact htproc
          have htstack : t ∉ s.cellStack := by
            intro hmem3
            rw [← hdecomp] at hmem3
            rcases List.mem_append.1 hmem3 with hm | hm
            · exact htnotin hm
            · exact htne (List.mem_singleton.1 hm)
          have hjjold := hs.closed t ht htproc2 h1 htstack jj hjj hadj
          by_cases h2 : jj = s.activeCell
          · rw [h2, processedAt, hcell_a2]
          · rw [processedAt, hcell_o2 jj h2]
            exact hjjold
      · -- freshStart
        intro hap _
        exfalso
        rw [processedAt, hcell_o2 j hjact, ← processedAt] at hap
        rw [hjproc] at hap
        exact Bool.noConfusion hap
      · -- completeStuck
        intro hcmp
        obtain ⟨hstk, _⟩ := hs.completeStuck hcmp
        rw [hstk] at hl
        exact Option.noConfusion hl
    | none =>
      rw [updateState_finish rows cols k s hp hl]
      have hstk : s.cellStack = [] := by
        rw [← List.getLast?_eq_none_iff]
        exact hl
      refine
        { len := hs.len
        , coords := hs.coords
        , activeLt := hs.activeLt
        , stackLt := hs.stackLt
        , stackProcessed := hs.stackProcessed
        , stackNodup := hs.stackNodup
        , activeNotInStack := hs.activeNotInStack
        , closed := hs.closed
        , freshStart := hs.freshStart
        , completeStuck := ?_ }
      intro _
      exact ⟨hstk, hempty⟩


lemma inv_runSteps (rows cols : Nat) (hr : 0 < rows) (hc : 0 < cols) (ks : List Nat)
    (s : MazeState) (hs : Inv rows cols s) : Inv rows cols (runSteps rows cols ks s) := by
  induction ks generalizing s with
  | nil => exact hs
  | cons k ks ih => exact ih _ (inv_updateState rows cols k s hr hc hs)

/-- C7: at every state reachable from createState by any number of steps
with any draws, the active cell is not an element of the stack and the
stack holds no duplicate entries. -/
theorem c7_stack_active_disjoint (rows cols : Nat) (hr : 1 ≤ rows) (hc : 1 ≤ cols)
    (ks : List Nat) :
    (runSteps rows cols ks (createState rows cols)).activeCell ∉
      (runSteps rows cols ks (createState rows cols)).cellStack ∧
    (runSteps rows cols ks (createState rows cols)).cellStack.Nodup := by
  have hinv := inv_runSteps rows cols hr hc ks (createState rows cols)
    (inv_createState rows cols hr hc)
  exact ⟨hinv.activeNotInStack, hinv.stackNodup⟩

/-- C7 witness: the disjointness facts on a concrete 2 by 2 run. -/
theorem c7_stack_active_disjoint_witness :
    (runSteps 2 2 [1, 0, 0] (createState 2 2)).activeCell ∉
      (runSteps 2 2 [1, 0, 0] (createState 2 2)).cellStack ∧
    (runSteps 2 2 [1, 0, 0] (createState 2 2)).cellStack.Nodup :=
  c7_stack_active_disjoint 2 2 (by decide) (by decide) [1, 0, 0]


lemma updateState_complete_mono (rows cols k : Nat) (s : MazeState)
    (h : s.mazeComplete = true) : (updateState rows cols k s).mazeComplete = true := by
  cases hp : pickFrom k (getValidNeighbors rows cols s.grid (cellAt s.grid s.activeCell)) with
  | some nIdx => rw [updateState_advance rows cols k s nIdx hp]; exact h
  | none =>
    cases hl : s.cellStack.getLast? with
    | some j => rw [updateState_pop rows cols k s j hp hl]; exact h
    | none => rw [updateState_finish rows cols k s hp hl]

lemma updateState_fixpoint (rows cols k : Nat) (s : MazeState)
    (hstk : s.cellStack = [])
    (hnb : getValidNeighbors rows cols s.grid (cellAt s.grid s.activeCell) = [])
    (hcm : s.mazeComplete = true) :
    updateState rows cols k s = s := by
  have hp : pickFrom k (getValidNeighbors rows cols s.grid (cellAt s.grid s.activeCell)) =
      none := by
    rw [hnb]; simp [pickFrom]
  have hl : s.cellStack.getLast? = none := by rw [hstk]; rfl
  rw [updateState_finish rows cols k s hp hl]
  cases s with
  | mk g a st c =>
    have hce : c = true := hcm
    rw [hce]

/-- C8: mazeComplete never reverts to false: a step on any state with
mazeComplete true leaves it true; and on every reachable complete state a
further step returns the state unchanged, so no visited flag changes and no
other component is corrupted. -/
theorem c8_termination_monotonicity (rows cols : Nat) (hr : 1 ≤ rows) (hc : 1 ≤ cols)
    (ks : List Nat) (k : Nat) :
    (∀ t : MazeState, t.mazeComplete = true →
      (updateState rows cols k t).mazeComplete = true) ∧
    ((runSteps rows cols ks (createState rows cols)).mazeComplete = true →
      updateState rows cols k (runSteps rows cols ks (createState rows cols)) =
        runSteps rows cols ks (createState rows cols)) := by
  constructor
  · intro t ht
    exact updateState_complete_mono rows cols k t ht
  · intro hcmp
    have hinv := inv_runSteps rows cols hr hc ks _ (inv_createState rows cols hr hc)
    obtain ⟨hstk, hnb⟩ := hinv.completeStuck hcmp
    exact updateState_fixpoint rows cols k _ hstk hnb hcmp

/-- C8 witness: a step on the completed 1 by 1 run changes nothing. -/
theorem c8_termination_monotonicity_witness :
    updateState 1 1 0 (runSteps 1 1 [0] (createState 1 1)) =
      runSteps 1 1 [0] (createState 1 1) :=
  (c8_termination_monotonicity 1 1 (by decide) (by decide) [0] 0).2 (by decide)

lemma advance_processedAt (rows cols k : Nat) (s : MazeState) (nIdx : Nat)
    (hc : 0 < cols) (hs : Inv rows cols s)
    (hp : pickFrom k (getValidNeighbors rows cols s.grid (cellAt s.grid s.activeCell)) =
      some nIdx) (t : Nat) :
    processedAt (updateState rows cols k s).grid t =
      if t = s.activeCell then true else processedAt s.grid t := by
  have hlen : s.grid.length = rows * cols := hs.len
  have hactlen : s.activeCell < s.grid.length := by rw [hlen]; exact hs.activeLt
  have hmem := pickFrom_mem _ _ _ hp
  obtain ⟨hnlt, hnadj, hnproc⟩ :=
    (mem_getValidNeighbors rows cols s.grid s.activeCell nIdx hc hs.coords hs.activeLt).1 hmem
  have hne : s.activeCell ≠ nIdx := adjIdx_ne cols s.activeCell nIdx hnadj
  have hnlen : nIdx < s.grid.length := by rw [hlen]; exact hnlt
  rw [updateState_advance rows cols k s nIdx hp]
  by_cases h1 : t = s.activeCell
  · subst h1
    rw [if_pos rfl, processedAt, cellAt_set_other _ _ _ _ (Ne.symm hne),
      cellAt_set_self _ _ _ hactlen]
  · rw [if_neg h1]
    by_cases h2 : t = nIdx
    · subst h2
      rw [processedAt, cellAt_set_self _ _ _ (by rw [List.length_set]; exact hnlen)]
      exact (removeWallBetween_snd_fields _ _).2.2
    · rw [processedAt, cellAt_set_other _ _ _ _ (Ne.symm h2),
        cellAt_set_other _ _ _ _ (Ne.symm h1), processedAt]

lemma pop_processedAt (rows cols k : Nat) (s : MazeState) (j : Nat)
    (hs : Inv rows cols s)
    (hp : pickFrom k (getValidNeighbors rows cols s.grid (cellAt s.grid s.activeCell)) = none)
    (hl : s.cellStack.getLast? = some j) (t : Nat) :
    processedAt (updateState rows cols k s).grid t =
      if t = s.activeCell then true else processedAt s.grid t := by
  have hlen : s.grid.length = rows * cols := hs.len
  have hactlen : s.activeCell < s.grid.length := by rw [hlen]; exact hs.activeLt
  rw [updateState_pop rows cols k s j hp hl]
  by_cases h1 : t = s.activeCell
  · subst h1
    rw [if_pos rfl, processedAt, cellAt_set_self _ _ _ hactlen]
  · rw [if_neg h1, processedAt, cellAt_set_other _ _ _ _ (Ne.symm h1), processedAt]

lemma freeSet_erase_of_processedAt (N : Nat) (s s2 : MazeState)
    (h : ∀ t, processedAt s2.grid t =
      if t = s.activeCell then true else processedAt s.grid t) :
    freeSet N s2 = (freeSet N s).erase s.activeCell := by
  ext i
  by_cases hia : i = s.activeCell
  · simp only [freeSet, Finset.mem_erase, Finset.mem_filter, Finset.mem_range, hia]
    simp only [ne_eq, not_true_eq_false, false_and, and_false, iff_false, not_and,
      Bool.not_eq_false]
    intro _
    rw [h s.activeCell, if_pos rfl]
  · simp [freeSet, Finset.mem_erase, Finset.mem_filter, Finset.mem_range, h i, hia]


lemma phi_advance (rows cols k : Nat) (s : MazeState) (nIdx : Nat)
    (hc : 0 < cols) (hs : Inv rows cols s)
    (hp : pickFrom k (getValidNeighbors rows cols s.grid (cellAt s.grid s.activeCell)) =
      some nIdx) :
    phi (rows * cols) (updateState rows cols k s) + 1 = phi (rows * cols) s := by
  have hmem := pickFrom_mem _ _ _ hp
  obtain ⟨hnlt, hnadj, hnproc⟩ :=
    (mem_getValidNeighbors rows cols s.grid s.activeCell nIdx hc hs.coords hs.activeLt).1 hmem
  have hne : s.activeCell ≠ nIdx := adjIdx_ne cols s.activeCell nIdx hnadj
  have hfs : freeSet (rows * cols) (updateState rows cols k s) =
      (freeSet (rows * cols) s).erase s.activeCell :=
    freeSet_erase_of_processedAt _ _ _ (advance_processedAt rows cols k s nIdx hc hs hp)
  have hact : (updateState rows cols k s).activeCell = nIdx := by
    rw [updateState_advance rows cols k s nIdx hp]
  have hstk : (updateState rows cols k s).cellStack = s.cellStack ++ [s.activeCell] := by
    rw [updateState_advance rows cols k s nIdx hp]
  have hmem2 : nIdx ∈ (freeSet (rows * cols) s).erase s.activeCell :=
    Finset.mem_erase.2 ⟨Ne.symm hne,
      Finset.mem_filter.2 ⟨Finset.mem_range.2 hnlt, hnproc⟩⟩
  have hpos : 0 < ((freeSet (rows * cols) s).erase s.activeCell).card :=
    Finset.card_pos.2 ⟨nIdx, hmem2⟩
  rw [phi, phi, hfs, hact, hstk, Finset.card_erase_of_mem hmem2, List.length_append]
  simp only [List.length_singleton]
  omega

lemma phi_pop (rows cols k : Nat) (s : MazeState) (j : Nat)
    (hs : Inv rows cols s)
    (hp : pickFrom k (getValidNeighbors rows cols s.grid (cellAt s.grid s.activeCell)) = none)
    (hl : s.cellStack.getLast? = some j) :
    phi (rows * cols) (updateState rows cols k s) + 1 = phi (rows * cols) s := by
  have hdecomp : s.cellStack.dropLast ++ [j] = s.cellStack :=
    List.dropLast_append_getLast? j (Option.mem_def.2 hl)
  have hjmem : j ∈ s.cellStack := by
    rw [← hdecomp]; exact List.mem_append_right _ (List.mem_singleton_self _)
  have hjproc := hs.stackProcessed j hjmem
  have hfs : freeSet (rows * cols) (updateState rows cols k s) =
      (freeSet (rows * cols) s).erase s.activeCell :=
    freeSet_erase_of_processedAt _ _ _ (pop_processedAt rows cols k s j hs hp hl)
  have hact : (updateState rows cols k s).activeCell = j := by
    rw [updateState_pop rows cols k s j hp hl]
  have hstk : (updateState rows cols k s).cellStack = s.cellStack.dropLast := by
    rw [updateState_pop rows cols k s j hp hl]
  have hjnot : j ∉ (freeSet (rows * cols) s).erase s.activeCell := by
    intro hmem2
    have := (Finset.mem_filter.1 (Finset.mem_of_mem_erase hmem2)).2
    rw [hjproc] at this
    exact Bool.noConfusion this
  have hlenstk : s.cellStack.length = s.cellStack.dropLast.length + 1 := by
    conv_lhs => rw [← hdecomp]
    rw [List.length_append, List.length_singleton]
  rw [phi, phi, hfs, hact, hstk, Finset.erase_eq_of_not_mem hjnot, hlenstk]
  omega

lemma phi_finish (rows cols k : Nat) (s : MazeState)
    (hp : pickFrom k (getValidNeighbors rows cols s.grid (cellAt s.grid s.activeCell)) = none)
    (hl : s.cellStack.getLast? = none) :
    phi (rows * cols) (updateState rows cols k s) = phi (rows * cols) s := by
  rw [updateState_finish rows cols k s hp hl]
  rfl

lemma runSteps_complete_mono (rows cols : Nat) (ks : List Nat) (s : MazeState)
    (h : s.mazeComplete = true) :
    (runSteps rows cols ks s).mazeComplete = true := by
  induction ks generalizing s with
  | nil => exact h
  | cons k ks ih => exact ih _ (updateState_complete_mono rows cols k s h)

lemma runSteps_complete_or_phi (rows cols : Nat) (hr : 0 < rows) (hc : 0 < cols)
    (ks : List Nat) (s : MazeState) (hs : Inv rows cols s) :
    (runSteps rows cols ks s).mazeComplete = true ∨
      phi (rows * cols) (runSteps rows cols ks s) + ks.length ≤ phi (rows * cols) s := by
  induction ks generalizing s with
  | nil => right; simp [runSteps]
  | cons k ks ih =>
    have hinv2 := inv_updateState rows cols k s hr hc hs
    cases hp : pickFrom k (getValidNeighbors rows cols s.grid (cellAt s.grid s.activeCell)) with
    | some nIdx =>
      have hstep := phi_advance rows cols k s nIdx hc hs hp
      rcases ih (updateState rows cols k s) hinv2 with h | h
      · left; exact h
      · right
        show phi (rows * cols) (runSteps rows cols ks (updateState rows cols k s)) +
          (ks.length + 1) ≤ phi (rows * cols) s
        omega
    | none =>
      cases hl : s.cellStack.getLast? with
      | some j =>
        have hstep := phi_pop rows cols k s j hs hp hl
        rcases ih (updateState rows cols k s) hinv2 with h | h
        · left; exact h
        · right
          show phi (rows * cols) (runSteps rows cols ks (updateState rows cols k s)) +
            (ks.length + 1) ≤ phi (rows * cols) s
          omega
      | none =>
        left
        have hcmp : (updateState rows cols k s).mazeComplete = true := by
          rw [updateState_finish rows cols k s hp hl]
        exact runSteps_complete_mono rows cols ks _ hcmp


lemma runOps_le_phi (rows cols : Nat) (hr : 0 < rows) (hc : 0 < cols)
    (ks : List Nat) (s : MazeState) (hs : Inv rows cols s) :
    runOps rows cols ks s ≤ phi (rows * cols) s := by
  induction ks generalizing s with
  | nil => exact Nat.zero_le _
  | cons k ks ih =>
    have hinv2 := inv_updateState rows cols k s hr hc hs
    have hrec := ih (updateState rows cols k s) hinv2
    show stepOps rows cols k s + runOps rows cols ks (updateState rows cols k s) ≤ _
    cases hp : pickFrom k (getValidNeighbors rows cols s.grid (cellAt s.grid s.activeCell)) with
    | some nIdx =>
      have hstep := phi_advance rows cols k s nIdx hc hs hp
      have hso : stepOps rows cols k s = 1 := by simp only [stepOps]; rw [hp]
      omega
    | none =>
      cases hl : s.cellStack.getLast? with
      | some j =>
        have hstep := phi_pop rows cols k s j hs hp hl
        have hso : stepOps rows cols k s = 1 := by simp only [stepOps]; rw [hp, hl]
        omega
      | none =>
        have hstep := phi_finish rows cols k s hp hl
        have hso : stepOps rows cols k s = 0 := by simp only [stepOps]; rw [hp, hl]
        omega

lemma runFlips_le_card (rows cols : Nat) (hr : 0 < rows) (hc : 0 < cols)
    (ks : List Nat) (s : MazeState) (hs : Inv rows cols s) :
    runFlips rows cols ks s ≤ (freeSet (rows * cols) s).card := by
  induction ks generalizing s with
  | nil => exact Nat.zero_le _
  | cons k ks ih =>
    have hinv2 := inv_updateState rows cols k s hr hc hs
    have hrec := ih (updateState rows cols k s) hinv2
    show stepFlips rows cols k s + runFlips rows cols ks (updateState rows cols k s) ≤ _
    cases hp : pickFrom k (getValidNeighbors rows cols s.grid (cellAt s.grid s.activeCell)) with
    | some nIdx =>
      have hfs : freeSet (rows * cols) (updateState rows cols k s) =
          (freeSet (rows * cols) s).erase s.activeCell :=
        freeSet_erase_of_processedAt _ _ _ (advance_processedAt rows cols k s nIdx hc hs hp)
      by_cases hap : processedAt s.grid s.activeCell = true
      · have hsf : stepFlips rows cols k s = 0 := by
          simp only [stepFlips]; rw [hp, hap]; rfl
        have hcard : (freeSet (rows * cols) (updateState rows cols k s)).card ≤
            (freeSet (rows * cols) s).card := by
          rw [hfs]; exact Finset.card_erase_le
        omega
      · have hapf : processedAt s.grid s.activeCell = false := by
          rcases Bool.eq_false_or_eq_true (processedAt s.grid s.activeCell) with h | h
          · exact absurd h hap
          · exact h
        have hsf : stepFlips rows cols k s = 1 := by
          simp only [stepFlips]; rw [hp, hapf]; rfl
        have hmemact : s.activeCell ∈ freeSet (rows * cols) s :=
          Finset.mem_filter.2 ⟨Finset.mem_range.2 hs.activeLt, hapf⟩
        have hposc : 0 < (freeSet (rows * cols) s).card :=
          Finset.card_pos.2 ⟨_, hmemact⟩
        have hcard : (freeSet (rows * cols) (updateState rows cols k s)).card =
            (freeSet (rows * cols) s).card - 1 := by
          rw [hfs]; exact Finset.card_erase_of_mem hmemact
        omega
    | none =>
      cases hl : s.cellStack.getLast? with
      | some j =>
        have hfs : freeSet (rows * cols) (updateState rows cols k s) =
            (freeSet (rows * cols) s).erase s.activeCell :=
          freeSet_erase_of_processedAt _ _ _ (pop_processedAt rows cols k s j hs hp hl)
        by_cases hap : processedAt s.grid s.activeCell = true
        · have hsf : stepFlips rows cols k s = 0 := by
            simp only [stepFlips]; rw [hp, hl, hap]; rfl
          have hcard : (freeSet (rows * cols) (updateState rows cols k s)).card ≤
              (freeSet (rows * cols) s).card := by
            rw [hfs]; exact Finset.card_erase_le
          omega
        · have hapf : processedAt s.grid s.activeCell = false := by
            rcases Bool.eq_false_or_eq_true (processedAt s.grid s.activeCell) with h | h
            · exact absurd h hap
            · exact h
          have hsf : stepFlips rows cols k s = 1 := by
            simp only [stepFlips]; rw [hp, hl, hapf]; rfl
          have hmemact : s.activeCell ∈ freeSet (rows * cols) s :=
            Finset.mem_filter.2 ⟨Finset.mem_range.2 hs.activeLt, hapf⟩
          have hposc : 0 < (freeSet (rows * cols) s).card :=
            Finset.card_pos.2 ⟨_, hmemact⟩
          have hcard : (freeSet (rows * cols) (updateState rows cols k s)).card =
              (freeSet (rows * cols) s).card - 1 := by
            rw [hfs]; exact Finset.card_erase_of_mem hmemact
          omega
      | none =>
        have hsf : stepFlips rows cols k s = 0 := by
          simp only [stepFlips]; rw [hp, hl]
        have hfs : freeSet (rows * cols) (updateState rows cols k s) =
            freeSet (rows * cols) s := by
          rw [updateState_finish rows cols k s hp hl]
          rfl
        rw [hfs] at hrec
        omega

lemma freeSet_createState (rows cols : Nat) (hc : 0 < cols) :
    freeSet (rows * cols) (createState rows cols) = Finset.range (rows * cols) := by
  ext i
  simp only [freeSet, Finset.mem_filter, Finset.mem_range, and_iff_left_iff_imp]
  intro hi
  rw [processedAt, show (createState rows cols).grid = createGrid rows cols from rfl,
    createGrid_cellAt_idx rows cols i hc hi]
  rfl

lemma phi_createState (rows cols : Nat) (hr : 0 < rows) (hc : 0 < cols) :
    phi (rows * cols) (createState rows cols) = 2 * (rows * cols - 1) := by
  have hN : 0 < rows * cols := Nat.mul_pos hr hc
  rw [phi, freeSet_createState rows cols hc]
  have h0 : (0 : Nat) ∈ Finset.range (rows * cols) := Finset.mem_range.2 hN
  rw [show (createState rows cols).activeCell = 0 from rfl,
    Finset.card_erase_of_mem h0, Finset.card_range,
    show (createState rows cols).cellStack = ([] : List Nat) from rfl]
  rfl

/-- C6 counterexample: on the completed 2 by 2 run the total number of
pushes and pops is 6, exceeding the claimed combined bound rows times cols
equal to 4; and the 1 by 1 run completes with 0 visit transitions, not
exactly rows times cols equal to 1. -/
theorem c6_counterexample_push_pop_bound :
    runOps 2 2 [1, 0, 0, 0, 0, 0, 0] (createState 2 2) = 6 ∧
    (runSteps 2 2 [1, 0, 0, 0, 0, 0, 0] (createState 2 2)).mazeComplete = true ∧
    runFlips 1 1 [0] (createState 1 1) = 0 ∧
    (runSteps 1 1 [0] (createState 1 1)).mazeComplete = true := by
  decide

/-- C6 amended: for every positive grid, generation driven by any draws
reaches mazeComplete within 2 rows cols - 1 steps, performs at most
2 rows cols - 2 pushes and pops combined, and flips at most rows times cols
visited flags. -/
theorem c6_amended_bounded_termination (rows cols : Nat) (hr : 1 ≤ rows) (hc : 1 ≤ cols)
    (ks : List Nat) :
    (2 * (rows * cols) - 1 ≤ ks.length →
      (runSteps rows cols ks (createState rows cols)).mazeComplete = true) ∧
    runOps rows cols ks (createState rows cols) ≤ 2 * (rows * cols) - 2 ∧
    runFlips rows cols ks (createState rows cols) ≤ rows * cols := by
  have hN : 0 < rows * cols := Nat.mul_pos hr hc
  have hinv := inv_createState rows cols hr hc
  have hphi := phi_createState rows cols hr hc
  refine ⟨?_, ?_, ?_⟩
  · intro hlen
    rcases runSteps_complete_or_phi rows cols hr hc ks _ hinv with h | h
    · exact h
    · exfalso; rw [hphi] at h; omega
  · have h := runOps_le_phi rows cols hr hc ks _ hinv
    rw [hphi] at h; omega
  · have h := runFlips_le_card rows cols hr hc ks _ hinv
    rw [freeSet_createState rows cols hc, Finset.card_range] at h
    exact h

/-- C6 amended witness: the bounds hold on a concrete 2 by 2 run of
7 steps. -/
theorem c6_amended_bounded_termination_witness :
    (runSteps 2 2 [0, 0, 0, 0, 0, 0, 0] (createState 2 2)).mazeComplete = true ∧
    runOps 2 2 [0, 0, 0, 0, 0, 0, 0] (createState 2 2) ≤ 2 * (2 * 2) - 2 ∧
    runFlips 2 2 [0, 0, 0, 0, 0, 0, 0] (createState 2 2) ≤ 2 * 2 := by
  have h := c6_amended_bounded_termination 2 2 (by decide) (by decide) [0, 0, 0, 0, 0, 0, 0]
  exact ⟨h.1 (by decide), h.2.1, h.2.2⟩

lemma processedAt_mono (rows cols k : Nat) (t : MazeState) (i : Nat)
    (h : processedAt t.grid i = true) :
    processedAt (updateState rows cols k t).grid i = true := by
  by_cases hlt : i < t.grid.length
  case neg =>
    exfalso
    rw [processedAt, cellAt_of_length_le _ _ (Nat.le_of_not_lt hlt)] at h
    exact Bool.noConfusion h
  case pos =>
    cases hp : pickFrom k (getValidNeighbors rows cols t.grid (cellAt t.grid t.activeCell)) with
    | some nIdx =>
      rw [updateState_advance rows cols k t nIdx hp]
      by_cases h2 : i = nIdx
      · subst h2
        rw [processedAt, cellAt_set_self _ _ _ (by rw [List.length_set]; exact hlt),
          (removeWallBetween_snd_fields _ _).2.2]
        exact h
      · rw [processedAt, cellAt_set_other _ _ _ _ (Ne.symm h2)]
        by_cases h3 : i = t.activeCell
        · subst h3
          rw [cellAt_set_self _ _ _ hlt]
        · rw [cellAt_set_other _ _ _ _ (Ne.symm h3)]
          exact h
    | none =>
      cases hl : t.cellStack.getLast? with
      | some j =>
        rw [updateState_pop rows cols k t j hp hl]
        by_cases h3 : i = t.activeCell
        · subst h3
          rw [processedAt, cellAt_set_self _ _ _ hlt]
        · rw [processedAt, cellAt_set_other _ _ _ _ (Ne.symm h3)]
          exact h
      | none =>
        rw [updateState_finish rows cols k t hp hl]
        exact h

lemma exists_adjacent (rows cols i : Nat) (hr : 0 < rows) (hc : 0 < cols)
    (hN2 : 2 ≤ rows * cols) (hi : i < rows * cols) :
    ∃ j, j < rows * cols ∧ adjIdx cols i j := by
  have hxlt : i % cols < cols := Nat.mod_lt _ hc
  have hylt : i / cols < rows := by rw [Nat.div_lt_iff_lt_mul hc]; exact hi
  rcases Nat.lt_or_ge cols 2 with hc1 | hc2
  · have hceq : cols = 1 := by omega
    have hr2 : 2 ≤ rows := by
      by_contra hlt
      have hre : rows = 1 := by omega
      rw [hre, hceq] at hN2
      omega
    rcases Nat.lt_or_ge (i / cols + 1) rows with hup | hup
    · refine ⟨(i / cols + 1) * cols + i % cols, idx_lt rows cols _ _ hup hxlt, ?_⟩
      obtain ⟨hm, hd⟩ := idx_mod_div cols (i / cols + 1) (i % cols) hc hxlt
      exact Or.inr ⟨hm.symm, Or.inl hd.symm⟩
    · have hge1 : 1 ≤ i / cols := by omega
      refine ⟨(i / cols - 1) * cols + i % cols,
        idx_lt rows cols _ _ (Nat.lt_of_le_of_lt (Nat.sub_le _ _) hylt) hxlt, ?_⟩
      obtain ⟨hm, hd⟩ := idx_mod_div cols (i / cols - 1) (i % cols) hc hxlt
      refine Or.inr ⟨hm.symm, Or.inr ?_⟩
      rw [hd]
      exact Nat.sub_add_cancel hge1
  · rcases Nat.lt_or_ge (i % cols + 1) cols with hxr | hxr
    · refine ⟨i / cols * cols + (i % cols + 1), idx_lt rows cols _ _ hylt hxr, ?_⟩
      obtain ⟨hm, hd⟩ := idx_mod_div cols (i / cols) (i % cols + 1) hc hxr
      exact Or.inl ⟨hd.symm, Or.inl hm.symm⟩
    · have hge1 : 1 ≤ i % cols := by omega
      refine ⟨i / cols * cols + (i % cols - 1),
        idx_lt rows cols _ _ hylt (Nat.lt_of_le_of_lt (Nat.sub_le _ _) hxlt), ?_⟩
      obtain ⟨hm, hd⟩ := idx_mod_div cols (i / cols) (i % cols - 1) hc
        (Nat.lt_of_le_of_lt (Nat.sub_le _ _) hxlt)
      refine Or.inl ⟨hd.symm, Or.inr ?_⟩
      rw [hm]
      exact Nat.sub_add_cancel hge1

lemma complete_closed (rows cols : Nat) (s : MazeState) (hc : 0 < cols)
    (hs : Inv rows cols s) (hstk : s.cellStack = [])
    (hemp : getValidNeighbors rows cols s.grid (cellAt s.grid s.activeCell) = [])
    (t : Nat) (ht : t < rows * cols) (htp : processedAt s.grid t = true)
    (j : Nat) (hj : j < rows * cols) (hadj : adjIdx cols t j) :
    processedAt s.grid j = true := by
  by_cases hta : t = s.activeCell
  · subst hta
    exact no_candidates_all_processed rows cols s hc hs hemp j hj hadj
  · exact hs.closed t ht htp hta (by rw [hstk]; exact List.not_mem_nil _) j hj hadj

lemma complete_all_processed (rows cols : Nat) (s : MazeState) (hr : 0 < rows) (hc : 0 < cols)
    (hN2 : 2 ≤ rows * cols) (hs : Inv rows cols s) (hcmp : s.mazeComplete = true) :
    ∀ i, i < rows * cols → processedAt s.grid i = true := by
  obtain ⟨hstk, hemp⟩ := hs.completeStuck hcmp
  have hact : processedAt s.grid s.activeCell = true := by
    rcases Bool.eq_false_or_eq_true (processedAt s.grid s.activeCell) with h | hfa
    · exact h
    exfalso
    obtain ⟨j, hj, hadj⟩ := exists_adjacent rows cols s.activeCell hr hc hN2 hs.activeLt
    have hall := hs.freshStart hfa hstk
    have hjmem : j ∈ getValidNeighbors rows cols s.grid (cellAt s.grid s.activeCell) :=
      (mem_getValidNeighbors rows cols s.grid s.activeCell j hc hs.coords hs.activeLt).2
        ⟨hj, hadj, hall j hj⟩
    rw [hemp] at hjmem
    exact absurd hjmem (List.not_mem_nil _)
  have hstep2 := complete_closed rows cols s hc hs hstk hemp
  obtain ⟨xa, ya, hxalt, hyalt, hacteq⟩ :
      ∃ xa ya, xa < cols ∧ ya < rows ∧ s.activeCell = ya * cols + xa :=
    ⟨s.activeCell % cols, s.activeCell / cols, Nat.mod_lt _ hc,
      by rw [Nat.div_lt_iff_lt_mul hc]; exact hs.activeLt,
      (Nat.div_add_mod' s.activeCell cols).symm⟩
  have hmain : ∀ d x y, x < cols → y < rows →
      (x - xa) + (xa - x) + (y - ya) + (ya - y) = d →
      processedAt s.grid (y * cols + x) = true := by
    intro d
    induction d with
    | zero =>
      intro x y hx hy hdist
      have hxx : x = xa := by omega
      have hyy : y = ya := by omega
      rw [hxx, hyy, ← hacteq]
      exact hact
    | succ d ih =>
      intro x y hx hy hdist
      rcases Nat.lt_trichotomy x xa with hlt | heq | hgt
      · have hx1 : x + 1 < cols := by omega
        have hprev : processedAt s.grid (y * cols + (x + 1)) = true :=
          ih (x + 1) y hx1 hy (by omega)
        obtain ⟨hm1, hd1⟩ := idx_mod_div cols y (x + 1) hc hx1
        obtain ⟨hm2, hd2⟩ := idx_mod_div cols y x hc hx
        exact hstep2 (y * cols + (x + 1)) (idx_lt rows cols _ _ hy hx1) hprev
          (y * cols + x) (idx_lt rows cols _ _ hy hx)
          (Or.inl ⟨by rw [hd1, hd2], Or.inr (by rw [hm1, hm2])⟩)
      · rcases Nat.lt_trichotomy y ya with hylt2 | heqy | hygt
        · have hy1 : y + 1 < rows := by omega
          have hprev : processedAt s.grid ((y + 1) * cols + x) = true :=
            ih x (y + 1) hx hy1 (by omega)
          obtain ⟨hm1, hd1⟩ := idx_mod_div cols (y + 1) x hc hx
          obtain ⟨hm2, hd2⟩ := idx_mod_div cols y x hc hx
          exact hstep2 ((y + 1) * cols + x) (idx_lt rows cols _ _ hy1 hx) hprev
            (y * cols + x) (idx_lt rows cols _ _ hy hx)
            (Or.inr ⟨by rw [hm1, hm2], Or.inr (by rw [hd1, hd2])⟩)
        · exfalso; omega
        · have hyge1 : 1 ≤ y := by omega
          have hprev : processedAt s.grid ((y - 1) * cols + x) = true :=
            ih x (y - 1) hx (by omega) (by omega)
          obtain ⟨hm1, hd1⟩ := idx_mod_div cols (y - 1) x hc hx
          obtain ⟨hm2, hd2⟩ := idx_mod_div cols y x hc hx
          exact hstep2 ((y - 1) * cols + x) (idx_lt rows cols _ _ (by omega) hx) hprev
            (y * cols + x) (idx_lt rows cols _ _ hy hx)
            (Or.inr ⟨by rw [hm1, hm2], Or.inl (by rw [hd1, hd2]; omega)⟩)
      · have hxge1 : 1 ≤ x := by omega
        have hprev : processedAt s.grid (y * cols + (x - 1)) = true :=
          ih (x - 1) y (by omega) hy (by omega)
        obtain ⟨hm1, hd1⟩ := idx_mod_div cols y (x - 1) hc (by omega)
        obtain ⟨hm2, hd2⟩ := idx_mod_div cols y x hc hx
        exact hstep2 (y * cols + (x - 1)) (idx_lt rows cols _ _ hy (by omega)) hprev
          (y * cols + x) (idx_lt rows cols _ _ hy hx)
          (Or.inl ⟨by rw [hd1, hd2], Or.inl (by rw [hm1, hm2]; omega)⟩)
  intro i hi
  obtain ⟨x, y, hxlt2, hylt2, hieq⟩ :
      ∃ x y, x < cols ∧ y < rows ∧ i = y * cols + x :=
    ⟨i % cols, i / cols, Nat.mod_lt _ hc,
      by rw [Nat.div_lt_iff_lt_mul hc]; exact hi,
      (Nat.div_add_mod' i cols).symm⟩
  rw [hieq]
  exact hmain _ x y hxlt2 hylt2 rfl

/-- C3 amended: on every grid with at least two cells, whenever the run
ends with mazeComplete true every cell has its visited flag true; together
with the facts that every flag starts false and that a step never resets a
true flag, each cell flips from false to true exactly once before
completion.  The final completing step itself marks nothing; the claim
fails on a 1 by 1 grid, whose unique cell is never marked. -/
theorem c3_amended_every_cell_visited (rows cols : Nat) (hr : 1 ≤ rows) (hc : 1 ≤ cols)
    (hN2 : 2 ≤ rows * cols) (ks : List Nat)
    (hcmp : (runSteps rows cols ks (createState rows cols)).mazeComplete = true) :
    (∀ i, i < rows * cols →
      processedAt (runSteps rows cols ks (createState rows cols)).grid i = true) ∧
    (∀ i, i < rows * cols → processedAt (createState rows cols).grid i = false) ∧
    (∀ (t : MazeState) (k i : Nat), processedAt t.grid i = true →
      processedAt (updateState rows cols k t).grid i = true) := by
  refine ⟨?_, ?_, ?_⟩
  · exact complete_all_processed rows cols _ hr hc hN2
      (inv_runSteps rows cols hr hc ks _ (inv_createState rows cols hr hc)) hcmp
  · intro i hi
    rw [processedAt, show (createState rows cols).grid = createGrid rows cols from rfl,
      createGrid_cellAt_idx rows cols i hc hi]
    rfl
  · intro t k i h
    exact processedAt_mono rows cols k t i h

/-- C3 amended witness: every cell of the completed 2 by 2 run is visited,
having started unvisited. -/
theorem c3_amended_every_cell_visited_witness :
    processedAt (runSteps 2 2 [0, 0, 0, 0, 0, 0, 0] (createState 2 2)).grid 3 = true ∧
    processedAt (createState 2 2).grid 3 = false := by
  have h := c3_amended_every_cell_visited 2 2 (by decide) (by decide) (by decide)
    [0, 0, 0, 0, 0, 0, 0] (by decide)
  exact ⟨h.1 3 (by decide), h.2.1 3 (by decide)⟩

end MazeApp
